import Mathlib

/-
Verification of the reconciliation pipeline of the Courier-Cost-Analyzer
repository (src/app.py, src/models.py).

The embedding models the predict route of app.py: per-upload ingestion
(_read_dataframe), column-name cleaning, per-file quick statistics, the
row-wise merge with injection of the required schema columns, the
difference column, the three-bucket summary, the single-slot export file
and the download route.

Modelling conventions:
  * Cell values are `Value`: exact rationals stand for the numeric values
    (pandas int64/float64), `Value.str` for text cells and `Value.null`
    for the None/NaN sentinel.  Rationals idealise IEEE floats; every
    concrete input used below is exactly representable.
  * Tables are a header list plus a list of rows; a column is addressed
    by the first position carrying its name, and tables built by the
    pipeline are rectangular (`WellFormed`).
  * Strings are processed over their character lists with structural
    recursion, covering the ASCII inputs the claims exercise.
  * pandas `read_excel` is an external library; the ingestor takes it as
    an explicit parameter of type `String → Except String Table`.
  * The flask session state relevant here is the single result slot
    written by a successful predict call and read by download.
-/

/-- Cell values: a numeric entry, a text entry, or the null sentinel
(models None/NaN). -/
inductive Value where
  | num (q : ℚ)
  | str (s : String)
  | null
  deriving DecidableEq, Repr

/-- Tabular data: a header list and a list of rows. -/
structure Table where
  cols : List String
  rows : List (List Value)
  deriving DecidableEq, Repr

/-- Index of the first column named `c`, if any. -/
def colIdx (cols : List String) (c : String) : Option Nat :=
  match cols with
  | [] => none
  | x :: xs => if x = c then some 0 else (colIdx xs c).map (fun i => i + 1)

/-- Value of row `r` in the column named `c`; null when the column is
absent. -/
def rowValue (cols : List String) (r : List Value) (c : String) : Value :=
  match colIdx cols c with
  | some i => r.getD i Value.null
  | none => Value.null

/-- Values of the column named `c`, one per row. -/
def getColVals (t : Table) (c : String) : List Value :=
  t.rows.map (fun r => rowValue t.cols r c)

/-- A table is well formed when every row has one cell per column. -/
def WellFormed (t : Table) : Prop :=
  ∀ r ∈ t.rows, r.length = t.cols.length

/-- Word character of the Python regex `\w` over ASCII: alphanumeric or
underscore. -/
def pyWordChar (c : Char) : Bool :=
  c.isAlphanum || c = '_'

/-- Whitespace of the Python regex `\s` over ASCII. -/
def pySpaceChar (c : Char) : Bool :=
  c = ' ' || c = '\t' || c = '\n' || c = '\r' || c = '\x0b' || c = '\x0c'

/-- Python str.strip: drop leading and trailing whitespace. -/
def pyStrip (s : String) : String :=
  String.mk (((s.toList.dropWhile pySpaceChar).reverse.dropWhile pySpaceChar).reverse)

/-- Python str.lower over ASCII, character by character. -/
def lowerStr (s : String) : String :=
  String.mk (s.toList.map Char.toLower)

/-- Column-name cleaning chain of app.py lines 184-190: strip, delete
the characters matched by `[^\w\s]`, turn each space into an underscore,
lower-case.  The headers handed over by pandas are modelled as strings
already, so the leading astype(str) is the identity here. -/
def normalizeHeader (s : String) : String :=
  String.mk (((((pyStrip s).toList.filter
      (fun c => pyWordChar c || pySpaceChar c)).map
      (fun c => if c = ' ' then '_' else c)).map Char.toLower))

/-- Normalization applied to a full header list. -/
def normalizeColumns (hs : List String) : List String :=
  hs.map normalizeHeader

/-- Normalization applied to the header of a table, values untouched. -/
def normalizeTable (t : Table) : Table :=
  { cols := normalizeColumns t.cols, rows := t.rows }

/-- Strip step of the specification text of section 4.1. -/
def specStrip (s : String) : String := pyStrip s

/-- Removal step of the specification text: keep only the characters
satisfying `keep`. -/
def specRemove (keep : Char → Bool) (s : String) : String :=
  String.mk (s.toList.filter keep)

/-- Space-to-underscore step of the specification text. -/
def specSpaceToUnderscore (s : String) : String :=
  String.mk (s.toList.map (fun c => if c = ' ' then '_' else c))

/-- Lower-casing step of the specification text. -/
def specLower (s : String) : String :=
  String.mk (s.toList.map Char.toLower)

/-- Normalizer following the words of the specification literally: step
three removes every character that is not alphanumeric or whitespace, so
underscores of the input are removed. -/
def specNormalizeHeader (s : String) : String :=
  specLower (specSpaceToUnderscore
    (specRemove (fun c => c.isAlphanum || pySpaceChar c) (specStrip s)))

/-- Normalizer following the specification steps with step three amended
to keep underscores: remove every character that is not alphanumeric,
an underscore, or whitespace. -/
def specNormalizeHeaderKeepUnderscore (s : String) : String :=
  specLower (specSpaceToUnderscore
    (specRemove (fun c => c.isAlphanum || c = '_' || pySpaceChar c) (specStrip s)))

/-- Natural number denoted by a digit list. -/
def digitsToNat (l : List Char) : Nat :=
  l.foldl (fun n c => n * 10 + (c.toNat - '0'.toNat)) 0

/-- Decimal number parser modelling the numeric parsing shared by the
float constructor, pandas read_csv type inference and pandas to_numeric:
an optional sign, an integer part and an optional fractional part.
Exponent and inf/nan spellings are outside the inputs exercised here. -/
def parseNum? (s : String) : Option ℚ :=
  let signBody : ℤ × List Char :=
    match s.toList with
    | '-' :: rest => (-1, rest)
    | '+' :: rest => (1, rest)
    | cs => (1, cs)
  let sgn := signBody.1
  let intPart := signBody.2.takeWhile Char.isDigit
  let rest := signBody.2.dropWhile Char.isDigit
  match rest with
  | [] =>
    if intPart.isEmpty then none
    else some ((sgn * (digitsToNat intPart : ℤ) : ℤ) : ℚ)
  | '.' :: frac =>
    if frac.all Char.isDigit && !(intPart.isEmpty && frac.isEmpty) then
      some ((sgn : ℚ) *
        ((digitsToNat intPart : ℚ) + (digitsToNat frac : ℚ) / (10 : ℚ) ^ frac.length))
    else none
  | _ => none

/-- Python float() applied to a string: surrounding whitespace is
allowed, then the decimal syntax. -/
def pyFloat? (s : String) : Option ℚ :=
  parseNum? (pyStrip s)

/-- Cell-level model of pd.to_numeric(errors="coerce"): numbers pass
through, null stays missing, strings parse or coerce to missing. -/
def toNumericVal : Value → Option ℚ
  | Value.num q => some q
  | Value.null => none
  | Value.str s => pyFloat? s

/-- Cell-level model of Series.astype(float): numbers pass through, null
becomes NaN (modelled as none), an unparseable string raises. -/
def astypeFloat : Value → Except String (Option ℚ)
  | Value.num q => Except.ok (some q)
  | Value.null => Except.ok none
  | Value.str s =>
    match pyFloat? s with
    | some q => Except.ok (some q)
    | none => Except.error ("could not convert string to float: " ++ s)

deriving instance DecidableEq for Except

/-- Truth of an Except being a success. -/
def exIsOk {ε α : Type} : Except ε α → Bool
  | Except.ok _ => true
  | Except.error _ => false

/-- Cell accepted by astypeFloat without raising. -/
def astypeOk (v : Value) : Bool :=
  exIsOk (astypeFloat v)

/-- Split a character list at a separator; mirrors Python str.split with
an explicit separator. -/
def splitCharAux (sep : Char) : List Char → List Char → List (List Char)
  | [], cur => [cur.reverse]
  | c :: cs, cur =>
    if c = sep then cur.reverse :: splitCharAux sep cs []
    else splitCharAux sep cs (c :: cur)

/-- Split a string at a separator character. -/
def splitChar (sep : Char) (s : String) : List String :=
  (splitCharAux sep s.toList []).map String.mk

/-- One CSV cell: empty cells are missing, numeric-looking cells become
numbers, everything else stays text. -/
def parseCell (s : String) : Value :=
  if s = "" then Value.null
  else
    match parseNum? s with
    | some q => Value.num q
    | none => Value.str s

/-- Model of pandas read_csv over the in-memory text payload: the first
non-blank line is the header, blank lines are skipped, a data row with
more fields than the header raises, shorter rows are padded with nulls,
an empty payload raises. -/
def parseCsv (payload : String) : Except String Table :=
  match (splitChar '\n' payload).filter (fun l => decide (l ≠ "")) with
  | [] => Except.error ("No columns to parse from file")
  | header :: dataLines =>
    let cols := splitChar ',' header
    let cells := dataLines.map (fun l => (splitChar ',' l).map parseCell)
    if cells.all (fun r => r.length ≤ cols.length) then
      Except.ok { cols := cols,
                  rows := cells.map (fun r => r ++ List.replicate (cols.length - r.length) Value.null) }
    else Except.error ("Error tokenizing data")

/-- Extension in the sense of os.path.splitext: the suffix starting at
the last dot, where the leading dots of the name never begin an
extension. -/
def splitextExt (s : String) : String :=
  let cs := s.toList
  let rest := cs.dropWhile (fun c => c = '.')
  if rest.contains '.' then
    String.mk ('.' :: (rest.reverse.takeWhile (fun c => c ≠ '.')).reverse)
  else String.mk []

/-- Extensions accepted by the upload loop (app.py line 69). -/
def ALLOWED_EXTS : List String :=
  [".csv", ".xlsx", ".xls"]

/-- Model of _allowed_file (app.py lines 72-74). -/
def allowedFile (filename : String) : Bool :=
  ALLOWED_EXTS.contains (splitextExt (lowerStr filename))

/-- One upload: declared filename plus in-memory payload. -/
structure Upload where
  filename : String
  payload : String
  deriving DecidableEq, Repr

/-- Model of _read_dataframe (app.py lines 76-87): dispatch on the
lowercased extension; .csv parses the buffer as CSV, .xlsx and .xls are
handed to the external spreadsheet reader, anything else raises. -/
def readDataframe (readExcel : String → Except String Table) (u : Upload) :
    Except String Table :=
  let ext := splitextExt (lowerStr u.filename)
  if ext = ".csv" then parseCsv u.payload
  else if ext = ".xlsx" || ext = ".xls" then readExcel u.payload
  else Except.error ("Unsupported file type")

/-- Round half to even, as the Python built-in round on exact values. -/
def roundHalfEven (q : ℚ) : ℤ :=
  let f := ⌊q⌋
  let r := q - (f : ℚ)
  if r < 1 / 2 then f
  else if 1 / 2 < r then f + 1
  else if f % 2 = 0 then f else f + 1

/-- Python round(q, n) on exact values. -/
def pyRound (q : ℚ) (n : Nat) : ℚ :=
  ((roundHalfEven (q * (10 : ℚ) ^ n) : ℤ) : ℚ) / (10 : ℚ) ^ n

/-- Displayed quick statistic: the N/A sentinel for an absent column,
NaN for an empty mean, or a number. -/
inductive Stat where
  | na
  | nan
  | num (q : ℚ)
  deriving DecidableEq, Repr

/-- Per-file quick statistics and preview (app.py lines 195-219). -/
structure FileSummary where
  filename : String
  preview : List (List Value)
  total_orders : Nat
  avg_weight : Stat
  total_cost : Stat
  chart_labels : List Value
  chart_data : List Nat
  deriving DecidableEq, Repr

/-- Sequence the fallible cell conversions of a column, stopping at the
first raise; mirrors applying astype to a Series. -/
def exMapM {α β : Type} (f : α → Except String β) : List α → Except String (List β)
  | [] => Except.ok []
  | x :: xs =>
    match f x with
    | Except.error e => Except.error e
    | Except.ok b =>
      match exMapM f xs with
      | Except.error e => Except.error e
      | Except.ok bs => Except.ok (b :: bs)

/-- Distinct values in order of first appearance. -/
def distinctKeys (vs : List Value) : List Value :=
  vs.foldl (fun acc v => if v ∈ acc then acc else acc ++ [v]) []

/-- Stable insertion of a keyed count into a descending-count list. -/
def insertByCount (x : Value × Nat) : List (Value × Nat) → List (Value × Nat)
  | [] => [x]
  | y :: ys => if y.2 < x.2 then x :: y :: ys else y :: insertByCount x ys

/-- Stable sort of keyed counts by descending count. -/
def sortByCount : List (Value × Nat) → List (Value × Nat)
  | [] => []
  | x :: xs => insertByCount x (sortByCount xs)

/-- Model of Series.value_counts().head(10): non-null values keyed by
frequency, most frequent first. -/
def chartOf (vs : List Value) : List Value × List Nat :=
  let nonNull := vs.filter (fun v => decide (v ≠ Value.null))
  let counted := (distinctKeys nonNull).map (fun k => (k, nonNull.count k))
  let sorted := (sortByCount counted).take 10
  (sorted.map Prod.fst, sorted.map Prod.snd)

/-- Model of the quick-statistics block (app.py lines 195-219) for one
normalized table.  astype(float) raises on an unparseable string, which
the surrounding loop catches per file. -/
def summarizeFile (filename : String) (t : Table) : Except String FileSummary :=
  match (if ("total_weight_as_per_x_kg") ∈ t.cols then
           match exMapM astypeFloat (getColVals t ("total_weight_as_per_x_kg")) with
           | Except.error e => Except.error e
           | Except.ok parsed =>
             let vals := parsed.filterMap id
             Except.ok (if vals.length = 0 then Stat.nan
                        else Stat.num (pyRound (vals.sum / (vals.length : ℚ)) 3))
         else Except.ok Stat.na) with
  | Except.error e => Except.error e
  | Except.ok avg =>
    match (if ("charges_billed_by_courier_company_rs") ∈ t.cols then
             match exMapM astypeFloat (getColVals t ("charges_billed_by_courier_company_rs")) with
             | Except.error e => Except.error e
             | Except.ok parsed => Except.ok (Stat.num (pyRound (parsed.filterMap id).sum 2))
           else Except.ok Stat.na) with
    | Except.error e => Except.error e
    | Except.ok cost =>
      let cd := if ("delivery_zone_as_per_x") ∈ t.cols then
                chartOf (getColVals t ("delivery_zone_as_per_x")) else ([], [])
      Except.ok { filename := filename, preview := t.rows.take 10,
                  total_orders := t.rows.length, avg_weight := avg, total_cost := cost,
                  chart_labels := cd.1, chart_data := cd.2 }

/-- Column union of pd.concat: every column in order of first
appearance. -/
def unionCols (ts : List Table) : List String :=
  ts.foldl (fun acc t => acc ++ t.cols.filter (fun c => decide (c ∉ acc))) []

/-- Row realigned to the union header, nulls where the source table has
no such column. -/
def alignRow (cols : List String) (tcols : List String) (r : List Value) : List Value :=
  cols.map (fun c => rowValue tcols r c)

/-- Model of pd.concat(dfs, ignore_index=True): row-wise concatenation
in upload order over the union of the headers. -/
def concatTables (ts : List Table) : Table :=
  { cols := unionCols ts,
    rows := (ts.map (fun t => t.rows.map (alignRow (unionCols ts) t.cols))).flatten }

/-- Append an all-null column, as dataframe[col] = None on a fresh
name. -/
def addNullCol (t : Table) (c : String) : Table :=
  { cols := t.cols ++ [c], rows := t.rows.map (fun r => r ++ [Value.null]) }

/-- Required schema of app.py lines 231-241. -/
def requiredCols : List String :=
  ["order_id", "awb_number", "total_weight_as_per_x_kg", "weight_slab_as_per_x_kg",
   "total_weight_as_per_courier_company_kg", "weight_slab_charged_by_courier_company_kg",
   "delivery_zone_as_per_x", "delivery_zone_charged_by_courier_company",
   "expected_charge_as_per_x_rs", "charges_billed_by_courier_company_rs"]

/-- Injection loop over a column list (app.py lines 242-244). -/
def ensureCols (l : List String) (t : Table) : Table :=
  l.foldl (fun acc c => if c ∈ acc.cols then acc else addNullCol acc c) t

/-- Injection of the required schema columns. -/
def ensureRequired (t : Table) : Table :=
  ensureCols requiredCols t

/-- Difference of one row: to_numeric(expected) minus to_numeric(billed),
missing when either side fails to coerce (app.py lines 246-249). -/
def rowDiff (cols : List String) (r : List Value) : Option ℚ :=
  match toNumericVal (rowValue cols r ("expected_charge_as_per_x_rs")),
        toNumericVal (rowValue cols r ("charges_billed_by_courier_company_rs")) with
  | some a, some b => some (a - b)
  | _, _ => none

/-- Difference as a stored cell. -/
def diffValue (cols : List String) (r : List Value) : Value :=
  match rowDiff cols r with
  | some q => Value.num q
  | none => Value.null

/-- Assignment of the difference column: overwritten in place when a
column of that name exists, appended otherwise, as a pandas column
assignment. -/
def addDifference (t : Table) : Table :=
  match colIdx t.cols ("difference") with
  | some i => { cols := t.cols, rows := t.rows.map (fun r => r.set i (diffValue t.cols r)) }
  | none => { cols := t.cols ++ ["difference"], rows := t.rows.map (fun r => r ++ [diffValue t.cols r]) }

/-- Difference cell equal to zero; false on null, as a NaN comparison. -/
def valIsZero : Value → Bool
  | Value.num q => decide (q = 0)
  | _ => false

/-- Difference cell strictly negative; false on null. -/
def valIsNeg : Value → Bool
  | Value.num q => decide (q < 0)
  | _ => false

/-- Difference cell strictly positive; false on null. -/
def valIsPos : Value → Bool
  | Value.num q => decide (0 < q)
  | _ => false

/-- Numeric content of a cell for summation; null contributes nothing,
as a pandas sum skipping NaN. -/
def valNum : Value → ℚ
  | Value.num q => q
  | _ => 0

/-- One summary bucket: a row count and a monetary amount. -/
structure Bucket where
  count : Nat
  amount : ℚ
  deriving DecidableEq, Repr

/-- The three-bucket reconciliation summary. -/
structure Summary where
  correct : Bucket
  over : Bucket
  under : Bucket
  deriving DecidableEq, Repr

/-- Model of the summary block (app.py lines 252-265) over the merged
table: rows classified by the sign of the difference column; the correct
amount sums the billed charges of the correct rows, the over amount sums
the sign-flipped negative differences, the under amount sums the
positive differences. -/
def reconcSummary (t : Table) : Summary :=
  let pairs := t.rows.map (fun r =>
    (rowValue t.cols r ("difference"), rowValue t.cols r ("charges_billed_by_courier_company_rs")))
  { correct := { count := (pairs.filter (fun p => valIsZero p.1)).length,
                 amount := ((pairs.filter (fun p => valIsZero p.1)).map (fun p => valNum p.2)).sum },
    over := { count := (pairs.filter (fun p => valIsNeg p.1)).length,
              amount := ((pairs.filter (fun p => valIsNeg p.1)).map (fun p => -(valNum p.1))).sum },
    under := { count := (pairs.filter (fun p => valIsPos p.1)).length,
               amount := ((pairs.filter (fun p => valIsPos p.1)).map (fun p => valNum p.1)).sum } }

/-- Everything the predict route hands to the template on success. -/
structure PredictOutput where
  file_summaries : List FileSummary
  merged : Table
  summary : Summary
  chart_labels : List String
  chart_data : List Nat
  deriving DecidableEq, Repr

/-- Outcome of one predict invocation. -/
inductive PredictResult where
  | noFiles (msg : String)
  | noValid (msg : String)
  | ok (out : PredictOutput)
  deriving DecidableEq, Repr

/-- One iteration of the upload loop (app.py lines 175-222) over the
accumulated (file_summaries, dfs, flashed errors).  The dataframe joins
the merge set before the quick statistics run, so a failing
summarization still leaves it in the merge set. -/
def processFile (readExcel : String → Except String Table)
    (acc : List FileSummary × List Table × List String) (u : Upload) :
    List FileSummary × List Table × List String :=
  if u.filename = "" ∨ allowedFile u.filename = false then
    (acc.1, acc.2.1, acc.2.2 ++ ["Unsupported file type: " ++ u.filename])
  else
    match readDataframe readExcel u with
    | Except.error e => (acc.1, acc.2.1, acc.2.2 ++ ["Error in " ++ u.filename ++ ": " ++ e])
    | Except.ok df0 =>
      let df := normalizeTable df0
      match summarizeFile u.filename df with
      | Except.error e => (acc.1, acc.2.1 ++ [df], acc.2.2 ++ ["Error in " ++ u.filename ++ ": " ++ e])
      | Except.ok s => (acc.1 ++ [s], acc.2.1 ++ [df], acc.2.2)

/-- Merge, schema injection, difference, summary and chart data (app.py
lines 229-268) over the collected tables. -/
def mkOutput (sums : List FileSummary) (dfs : List Table) : PredictOutput :=
  let merged := addDifference (ensureRequired (concatTables dfs))
  let s := reconcSummary merged
  { file_summaries := sums, merged := merged, summary := s,
    chart_labels := ["Correct", "Overcharged", "Undercharged"],
    chart_data := [s.correct.count, s.over.count, s.under.count] }

/-- Process-level state: the single-slot result file written by a
successful predict call. -/
structure ProcState where
  resultFile : Option Table
  deriving DecidableEq, Repr

/-- Fresh process state: no result has been exported yet. -/
def initialState : ProcState :=
  { resultFile := none }

/-- Tail of the predict route after the upload loop (app.py lines
224-296): reject an empty merge set, otherwise merge, summarize and
overwrite the single-slot result file.  The argument is the loop state
(file_summaries, dfs, flashed errors). -/
def runMerge (acc : List FileSummary × List Table × List String) (st : ProcState) :
    PredictResult × List String × ProcState :=
  if acc.2.1 = [] then
    (PredictResult.noValid ("No valid files processed."), acc.2.2, st)
  else
    (PredictResult.ok (mkOutput acc.1 acc.2.1), acc.2.2,
     { resultFile := some (mkOutput acc.1 acc.2.1).merged })

/-- Model of the predict route (app.py lines 159-296): guard the batch,
run the per-file loop, then the merge tail. -/
def runPredict (readExcel : String → Except String Table) (uploads : List Upload)
    (st : ProcState) : PredictResult × List String × ProcState :=
  if uploads = [] ∨ ∀ u ∈ uploads, u.filename = "" then
    (PredictResult.noFiles ("Please select at least one file."), [], st)
  else
    runMerge (uploads.foldl (processFile readExcel) ([], [], [])) st

/-- Outcome of the download route. -/
inductive DownloadResult where
  | fileResponse (t : Table)
  | exportUnavailable (msg : String)
  deriving DecidableEq, Repr

/-- Model of the download route (app.py lines 299-305): stream the
result file when one exists, otherwise flash that none is available. -/
def download (st : ProcState) : DownloadResult :=
  match st.resultFile with
  | some t => DownloadResult.fileResponse t
  | none => DownloadResult.exportUnavailable ("No result file available.")

/-- Sequence of predict invocations threading the process state. -/
def runBatches (readExcel : String → Except String Table)
    (batches : List (List Upload)) (st : ProcState) : ProcState :=
  batches.foldl (fun s b => (runPredict readExcel b s).2.2) st

/-- Truth of a predict outcome being a successful reconciliation. -/
def resultIsOk : PredictResult → Bool
  | PredictResult.ok _ => true
  | _ => false

/-- Summary of a successful outcome, if any. -/
def okSummary : PredictResult → Option Summary
  | PredictResult.ok out => some out.summary
  | _ => none

/-- Spreadsheet reader standing in for runs that upload no spreadsheet;
never consulted by the csv-only batches below. -/
def readExcelNone : String → Except String Table :=
  fun _ => Except.error ("no spreadsheet reader configured")

/-- Contribution of one upload to the collected file summaries. -/
def fileSummaryOf (readExcel : String → Except String Table) (u : Upload) :
    Option FileSummary :=
  if u.filename = "" ∨ allowedFile u.filename = false then none
  else
    match readDataframe readExcel u with
    | Except.error _ => none
    | Except.ok df0 =>
      match summarizeFile u.filename (normalizeTable df0) with
      | Except.error _ => none
      | Except.ok s => some s

/-- Contribution of one upload to the merge set. -/
def tableOf (readExcel : String → Except String Table) (u : Upload) : Option Table :=
  if u.filename = "" ∨ allowedFile u.filename = false then none
  else
    match readDataframe readExcel u with
    | Except.error _ => none
    | Except.ok df0 => some (normalizeTable df0)

/-- Contribution of one upload to the flashed error messages. -/
def noticesOf (readExcel : String → Except String Table) (u : Upload) : List String :=
  if u.filename = "" ∨ allowedFile u.filename = false then
    ["Unsupported file type: " ++ u.filename]
  else
    match readDataframe readExcel u with
    | Except.error e => ["Error in " ++ u.filename ++ ": " ++ e]
    | Except.ok df0 =>
      match summarizeFile u.filename (normalizeTable df0) with
      | Except.error e => ["Error in " ++ u.filename ++ ": " ++ e]
      | Except.ok _ => []

/-- CSV payload of the two-row example batch. -/
def csvC1 : String :=
  "order_id,expected_charge_as_per_x_rs,charges_billed_by_courier_company_rs\nA1,100,90\nA2,50,50"

/-- Upload of the two-row example batch. -/
def uploadC1 : Upload :=
  { filename := "data.csv", payload := csvC1 }

/-- CSV payload with a matching negative expected and billed charge. -/
def csvC5 : String :=
  "order_id,expected_charge_as_per_x_rs,charges_billed_by_courier_company_rs\nA1,-5,-5"

/-- Upload of the negative-charge batch. -/
def uploadC5 : Upload :=
  { filename := "refunds.csv", payload := csvC5 }

/-- Upload with an extension outside the allowed set. -/
def uploadBad : Upload :=
  { filename := "notes.txt", payload := "hello" }

/-- CSV payload whose weight column holds an unparseable string. -/
def csvW : String :=
  "total_weight_as_per_x_kg\nabc"

/-- Upload of the unparseable-weight batch. -/
def uploadW : Upload :=
  { filename := "weights.csv", payload := csvW }

/-- One-column table used to witness the schema-injection claim. -/
def tableX : Table :=
  { cols := ["x"], rows := [[Value.num 1]] }

/-- Weight table with a null entry, used for the missing-value
exclusion example. -/
def tableWeightNull : Table :=
  { cols := ["total_weight_as_per_x_kg"], rows := [[Value.num 1], [Value.null], [Value.num 3]] }

/-- Weight table with an unparseable entry. -/
def tableWeightBad : Table :=
  { cols := ["total_weight_as_per_x_kg"], rows := [[Value.str "abc"]] }

/-- A column index of none is exactly absence of the column. -/
theorem colIdx_eq_none_iff (cols : List String) (c : String) :
    colIdx cols c = none ↔ c ∉ cols := by
  induction cols with
  | nil => simp [colIdx]
  | cons x xs ih =>
    by_cases hx : x = c
    · subst hx
      simp [colIdx]
    · simp only [colIdx, if_neg hx, Option.map_eq_none', ih, List.mem_cons]
      constructor
      · intro hn hor
        rcases hor with h1 | h2
        · exact hx (Eq.symm h1)
        · exact hn h2
      · exact fun hn hc => hn (Or.inr hc)

/-- A present column has some first index. -/
theorem colIdx_isSome_of_mem {cols : List String} {c : String} (h : c ∈ cols) :
    ∃ i, colIdx cols c = some i := by
  cases hc : colIdx cols c with
  | none => exact absurd ((colIdx_eq_none_iff cols c).mp hc) (by simp [h])
  | some i => exact ⟨i, rfl⟩

/-- A column index stays inside the header. -/
theorem colIdx_lt {cols : List String} {c : String} {i : Nat}
    (h : colIdx cols c = some i) : i < cols.length := by
  induction cols generalizing i with
  | nil => simp [colIdx] at h
  | cons x xs ih =>
    by_cases hx : x = c
    · rw [colIdx, if_pos hx] at h
      injection h with h
      simp only [List.length_cons]
      omega
    · simp only [colIdx, if_neg hx, Option.map_eq_some'] at h
      obtain ⟨j, hj, rfl⟩ := h
      have := ih hj
      simp only [List.length_cons]
      omega

/-- The header entry at a column index is the requested name. -/
theorem colIdx_getElem {cols : List String} {c : String} {i : Nat}
    (h : colIdx cols c = some i) : cols[i]? = some c := by
  induction cols generalizing i with
  | nil => simp [colIdx] at h
  | cons x xs ih =>
    by_cases hx : x = c
    · simp [colIdx, hx] at h
      subst h
      simp [hx]
    · simp only [colIdx, if_neg hx, Option.map_eq_some'] at h
      obtain ⟨j, hj, rfl⟩ := h
      simpa using ih hj

/-- Reading an absent column gives null. -/
theorem rowValue_of_not_mem {cols : List String} {c : String} (r : List Value)
    (h : c ∉ cols) : rowValue cols r c = Value.null := by
  unfold rowValue
  rw [(colIdx_eq_none_iff cols c).mpr h]

/-- A first index found on the left half survives appending. -/
theorem colIdx_append_some {l1 : List String} {c : String} {i : Nat} (l2 : List String)
    (h : colIdx l1 c = some i) : colIdx (l1 ++ l2) c = some i := by
  induction l1 generalizing i with
  | nil => simp [colIdx] at h
  | cons x xs ih =>
    by_cases hx : x = c
    · rw [colIdx, if_pos hx] at h
      injection h with h
      rw [List.cons_append, colIdx, if_pos hx, h]
    · simp only [colIdx, if_neg hx, Option.map_eq_some'] at h
      obtain ⟨j, hj, rfl⟩ := h
      simp [List.cons_append, colIdx, if_neg hx, ih hj]

/-- Looking up past an absent left half shifts the index. -/
theorem colIdx_append_none {l1 : List String} {c : String} (l2 : List String)
    (h : c ∉ l1) : colIdx (l1 ++ l2) c = (colIdx l2 c).map (fun i => i + l1.length) := by
  induction l1 with
  | nil =>
    simp only [List.nil_append, List.length_nil]
    cases colIdx l2 c <;> simp
  | cons x xs ih =>
    have hx : ¬ (x = c) := fun hxc => h (by simp [hxc])
    have hxs : c ∉ xs := fun hc => h (List.mem_cons_of_mem x hc)
    rw [List.cons_append, colIdx, if_neg hx, ih hxs]
    cases colIdx l2 c with
    | none => simp
    | some j =>
      simp only [Option.map_some', List.length_cons]
      congr 1

/-- Reading a column of the left half of an appended row. -/
theorem rowValue_append_left {cols1 : List String} {c : String} {i : Nat}
    (cols2 : List String) (r1 r2 : List Value)
    (h : colIdx cols1 c = some i) (hr : cols1.length ≤ r1.length) :
    rowValue (cols1 ++ cols2) (r1 ++ r2) c = rowValue cols1 r1 c := by
  unfold rowValue
  rw [colIdx_append_some cols2 h, h]
  exact List.getD_append r1 r2 Value.null i (lt_of_lt_of_le (colIdx_lt h) hr)

/-- Reading a column that lives in the right half of an appended row. -/
theorem rowValue_append_right {cols1 : List String} {c : String}
    (cols2 : List String) (r1 r2 : List Value)
    (h : c ∉ cols1) (hr : r1.length = cols1.length) :
    rowValue (cols1 ++ cols2) (r1 ++ r2) c = rowValue cols2 r2 c := by
  unfold rowValue
  rw [colIdx_append_none cols2 h]
  cases hc : colIdx cols2 c with
  | none => simp
  | some j =>
    simp only [Option.map_some']
    rw [List.getD_append_right r1 r2 Value.null (j + cols1.length) (by omega)]
    congr 1
    omega

/-- Reading any column of an all-null row gives null. -/
theorem rowValue_replicate_null (cols : List String) (n : Nat) (c : String) :
    rowValue cols (List.replicate n Value.null) c = Value.null := by
  cases hc : colIdx cols c with
  | none => simp [rowValue, hc]
  | some i =>
    simp only [rowValue, hc]
    rw [List.getD_eq_getElem?_getD, List.getElem?_replicate]
    split <;> rfl

/-- Reading a row built by mapping over the header itself. -/
theorem rowValue_map_self {cols : List String} {c : String} (f : String → Value)
    (h : c ∈ cols) : rowValue cols (cols.map f) c = f c := by
  obtain ⟨i, hi⟩ := colIdx_isSome_of_mem h
  simp only [rowValue, hi]
  rw [List.getD_eq_getElem?_getD, List.getElem?_map, colIdx_getElem hi]
  rfl

/-- Cell read back after setting the same position. -/
theorem getD_set_self {r : List Value} {i : Nat} (v : Value) (h : i < r.length) :
    (r.set i v).getD i Value.null = v := by
  rw [List.getD_eq_getElem?_getD, List.getElem?_set_self h]
  rfl

/-- Cell read at another position after a set. -/
theorem getD_set_ne {i j : Nat} (r : List Value) (v d : Value) (h : i ≠ j) :
    (r.set i v).getD j d = r.getD j d := by
  rw [List.getD_eq_getElem?_getD, List.getElem?_set_ne h, List.getD_eq_getElem?_getD]

/-- Membership in the union fold, generalized over the accumulator. -/
theorem mem_unionFold (ts : List Table) (acc : List String) (x : String) :
    x ∈ ts.foldl (fun acc t => acc ++ t.cols.filter (fun c => decide (c ∉ acc))) acc ↔
      x ∈ acc ∨ ∃ t ∈ ts, x ∈ t.cols := by
  induction ts generalizing acc with
  | nil => simp
  | cons t ts ih =>
    simp only [List.foldl_cons, ih, List.mem_append, List.mem_filter, decide_eq_true_eq,
      List.mem_cons]
    constructor
    · intro h
      rcases h with (h | h) | ⟨t2, ht2, hx⟩
      · exact Or.inl h
      · exact Or.inr ⟨t, Or.inl rfl, h.1⟩
      · exact Or.inr ⟨t2, Or.inr ht2, hx⟩
    · intro h
      by_cases hacc : x ∈ acc
      · exact Or.inl (Or.inl hacc)
      · rcases h with h | ⟨t2, ht2 | ht2, hx⟩
        · exact absurd h hacc
        · exact Or.inl (Or.inr ⟨by rw [ht2] at hx; exact hx, hacc⟩)
        · exact Or.inr ⟨t2, ht2, hx⟩

/-- A name appears in the union of the headers exactly when some table
has it. -/
theorem mem_unionCols (ts : List Table) (x : String) :
    x ∈ unionCols ts ↔ ∃ t ∈ ts, x ∈ t.cols := by
  rw [unionCols, mem_unionFold]
  simp

/-- Every aligned row of a member table appears among the concatenated
rows. -/
theorem concat_rows_mem {ts : List Table} {t : Table} (ht : t ∈ ts) {r : List Value}
    (hr : r ∈ t.rows) :
    alignRow (unionCols ts) t.cols r ∈ (concatTables ts).rows := by
  simp only [concatTables, List.mem_flatten]
  exact ⟨t.rows.map (alignRow (unionCols ts) t.cols),
    List.mem_map_of_mem _ ht, List.mem_map_of_mem _ hr⟩

/-- The concatenated table is rectangular. -/
theorem concat_wf (ts : List Table) : WellFormed (concatTables ts) := by
  intro r hr
  simp only [concatTables, List.mem_flatten, List.mem_map] at hr
  obtain ⟨rows, ⟨t, _, rfl⟩, hrr⟩ := hr
  obtain ⟨r0, _, rfl⟩ := List.mem_map.mp hrr
  simp [alignRow, concatTables]

/-- Aligning a row to a wider header preserves the reading of a column
present in it. -/
theorem alignRow_value {U tc : List String} {c : String} (r : List Value) (hc : c ∈ U) :
    rowValue U (alignRow U tc r) c = rowValue tc r c := by
  simpa [alignRow] using rowValue_map_self (fun x => rowValue tc r x) hc

/-- The injection fold appends some fresh all-null columns on the
right. -/
theorem ensureCols_decomp (l : List String) (t : Table) :
    ∃ extra : List String,
      (ensureCols l t).cols = t.cols ++ extra ∧
      (ensureCols l t).rows = t.rows.map (fun r => r ++ List.replicate extra.length Value.null) := by
  induction l generalizing t with
  | nil => exact ⟨[], by simp [ensureCols], by simp [ensureCols]⟩
  | cons c l ih =>
    have hstep : ensureCols (c :: l) t
        = ensureCols l (if c ∈ t.cols then t else addNullCol t c) := rfl
    by_cases hc : c ∈ t.cols
    · rw [hstep, if_pos hc]
      exact ih t
    · rw [hstep, if_neg hc]
      obtain ⟨extra, hcols, hrows⟩ := ih (addNullCol t c)
      refine ⟨c :: extra, ?_, ?_⟩
      · rw [hcols]
        simp [addNullCol]
      · rw [hrows]
        simp only [addNullCol, List.map_map]
        apply List.map_congr_left
        intro r _
        simp [List.replicate_succ, List.append_assoc]

/-- Injected headers contain every requested name. -/
theorem mem_ensureCols (l : List String) (t : Table) (c : String) (h : c ∈ l) :
    c ∈ (ensureCols l t).cols := by
  induction l generalizing t with
  | nil => simp at h
  | cons x l ih =>
    have hstep : ensureCols (x :: l) t
        = ensureCols l (if x ∈ t.cols then t else addNullCol t x) := rfl
    rw [hstep]
    rcases List.mem_cons.mp h with rfl | hc
    · obtain ⟨extra, hcols, _⟩ :=
        ensureCols_decomp l (if c ∈ t.cols then t else addNullCol t c)
      rw [hcols]
      apply List.mem_append_left
      by_cases hmem : c ∈ t.cols
      · simpa [if_pos hmem] using hmem
      · simp [if_neg hmem, addNullCol]
    · exact ih _ hc

/-- The injection fold preserves rectangularity. -/
theorem wf_ensureCols (l : List String) {t : Table} (hw : WellFormed t) :
    WellFormed (ensureCols l t) := by
  obtain ⟨extra, hcols, hrows⟩ := ensureCols_decomp l t
  intro r hr
  rw [hrows] at hr
  obtain ⟨r0, hr0, rfl⟩ := List.mem_map.mp hr
  simp [hcols, hw r0 hr0]

/-- A column absent before injection reads null everywhere after it. -/
theorem ensureCols_absent_null (l : List String) {t : Table} (hw : WellFormed t)
    {c : String} (hc : c ∉ t.cols) :
    ∀ v ∈ getColVals (ensureCols l t) c, v = Value.null := by
  obtain ⟨extra, hcols, hrows⟩ := ensureCols_decomp l t
  intro v hv
  simp only [getColVals, hrows, hcols, List.map_map, List.mem_map, Function.comp_apply] at hv
  obtain ⟨r0, hr0, rfl⟩ := hv
  rw [rowValue_append_right extra r0 (List.replicate extra.length Value.null) hc (hw r0 hr0)]
  exact rowValue_replicate_null extra extra.length c

/-- The difference assignment preserves rectangularity. -/
theorem addDifference_wf {t : Table} (hw : WellFormed t) : WellFormed (addDifference t) := by
  cases hd : colIdx t.cols ("difference") with
  | some i =>
    intro r hr
    simp only [addDifference, hd, List.mem_map] at hr ⊢
    obtain ⟨r0, hr0, rfl⟩ := hr
    simp [List.length_set, hw r0 hr0]
  | none =>
    intro r hr
    simp only [addDifference, hd, List.mem_map] at hr ⊢
    obtain ⟨r0, hr0, rfl⟩ := hr
    simp [hw r0 hr0]

/-- The difference assignment keeps every existing header name. -/
theorem addDifference_cols_sub (t : Table) : t.cols ⊆ (addDifference t).cols := by
  cases hd : colIdx t.cols ("difference") with
  | some i => simp [addDifference, hd, List.Subset.refl]
  | none => simp only [addDifference, hd]; exact List.subset_append_left _ _

/-- The difference column of the assigned table holds the per-row
computed difference. -/
theorem getColVals_addDifference {t : Table} (hw : WellFormed t) :
    getColVals (addDifference t) ("difference") = t.rows.map (fun r => diffValue t.cols r) := by
  cases hd : colIdx t.cols ("difference") with
  | some i =>
    simp only [addDifference, hd, getColVals, List.map_map]
    apply List.map_congr_left
    intro r hr
    simp only [Function.comp_apply, rowValue, hd]
    exact getD_set_self _ (by rw [hw r hr]; exact colIdx_lt hd)
  | none =>
    have hnm : ("difference") ∉ t.cols := (colIdx_eq_none_iff _ _).mp hd
    simp only [addDifference, hd, getColVals, List.map_map]
    apply List.map_congr_left
    intro r hr
    simp only [Function.comp_apply]
    rw [rowValue_append_right ["difference"] r [diffValue t.cols r] hnm (hw r hr)]
    simp [rowValue, colIdx]

/-- The difference assignment maps the rows and keeps the reading of
every other column. -/
theorem addDifference_rows_map (t : Table) :
    ∃ g : List Value → List Value,
      (addDifference t).rows = t.rows.map g ∧
      ∀ c, c ≠ ("difference") → ∀ r : List Value, r.length = t.cols.length →
        rowValue (addDifference t).cols (g r) c = rowValue t.cols r c := by
  cases hd : colIdx t.cols ("difference") with
  | some i =>
    refine ⟨fun r => r.set i (diffValue t.cols r), by simp [addDifference, hd], ?_⟩
    intro c hc r hrlen
    simp only [addDifference, hd]
    cases hcc : colIdx t.cols c with
    | none => simp [rowValue, hcc]
    | some j =>
      have hji : j ≠ i := by
        intro hji
        subst hji
        have h1 := colIdx_getElem hcc
        have h2 := colIdx_getElem hd
        rw [h1] at h2
        exact hc (Option.some.inj h2)
      simp only [rowValue, hcc]
      exact getD_set_ne r _ _ (Ne.symm hji)
  | none =>
    refine ⟨fun r => r ++ [diffValue t.cols r], by simp [addDifference, hd], ?_⟩
    intro c hc r hrlen
    simp only [addDifference, hd]
    cases hcc : colIdx t.cols c with
    | none =>
      have hcm : c ∉ t.cols := (colIdx_eq_none_iff _ _).mp hcc
      rw [rowValue_append_right ["difference"] r _ hcm hrlen, rowValue_of_not_mem _ hcm]
      have hnc : ¬ (("difference" : String) = c) := fun h => hc (Eq.symm h)
      simp [rowValue, colIdx, hnc]
    | some j =>
      exact rowValue_append_left ["difference"] r _ hcc hrlen.symm.le

/-- Rows of a merged input table reappear in the final merged table with
every original column other than a possible difference column read
unchanged. -/
theorem merged_preserves {dfs : List Table} {t : Table} (ht : t ∈ dfs) {r : List Value}
    (hr : r ∈ t.rows) :
    ∃ mr ∈ (addDifference (ensureRequired (concatTables dfs))).rows,
      ∀ c ∈ t.cols, c ≠ ("difference") →
        rowValue (addDifference (ensureRequired (concatTables dfs))).cols mr c
          = rowValue t.cols r c := by
  have h1 : alignRow (unionCols dfs) t.cols r ∈ (concatTables dfs).rows :=
    concat_rows_mem ht hr
  obtain ⟨extra, hcols2, hrows2⟩ := ensureCols_decomp requiredCols (concatTables dfs)
  have h2 : alignRow (unionCols dfs) t.cols r ++ List.replicate extra.length Value.null
      ∈ (ensureRequired (concatTables dfs)).rows := by
    rw [ensureRequired, hrows2]
    exact List.mem_map_of_mem _ h1
  have hwf2 : WellFormed (ensureRequired (concatTables dfs)) :=
    wf_ensureCols _ (concat_wf dfs)
  obtain ⟨g, hgrows, hgval⟩ := addDifference_rows_map (ensureRequired (concatTables dfs))
  refine ⟨g (alignRow (unionCols dfs) t.cols r ++ List.replicate extra.length Value.null),
    ?_, ?_⟩
  · rw [hgrows]
    exact List.mem_map_of_mem _ h2
  · intro c hc hcd
    have hcU : c ∈ unionCols dfs := (mem_unionCols dfs c).mpr ⟨t, ht, hc⟩
    obtain ⟨i, hi⟩ := colIdx_isSome_of_mem hcU
    rw [hgval c hcd _ (hwf2 _ h2)]
    have hcolseq : (ensureRequired (concatTables dfs)).cols = unionCols dfs ++ extra := by
      rw [ensureRequired, hcols2]
      rfl
    have hle : (unionCols dfs).length ≤ (alignRow (unionCols dfs) t.cols r).length := by
      simp [alignRow]
    rw [hcolseq, rowValue_append_left extra _ _ hi hle]
    exact alignRow_value r hcU

/-- The loop body appends exactly the per-upload contributions. -/
theorem processFile_eq (re : String → Except String Table)
    (acc : List FileSummary × List Table × List String) (u : Upload) :
    processFile re acc u =
      (acc.1 ++ (fileSummaryOf re u).toList,
       acc.2.1 ++ (tableOf re u).toList,
       acc.2.2 ++ noticesOf re u) := by
  by_cases hg : u.filename = "" ∨ allowedFile u.filename = false
  · simp [processFile, fileSummaryOf, tableOf, noticesOf, hg]
  · cases hr : readDataframe re u with
    | error e => simp [processFile, fileSummaryOf, tableOf, noticesOf, hg, hr]
    | ok df0 =>
      cases hs : summarizeFile u.filename (normalizeTable df0) with
      | error e => simp [processFile, fileSummaryOf, tableOf, noticesOf, hg, hr, hs]
      | ok s => simp [processFile, fileSummaryOf, tableOf, noticesOf, hg, hr, hs]

/-- The upload loop collects summaries, tables and notices as filtered
maps over the uploads. -/
theorem foldl_processFile (re : String → Except String Table) (us : List Upload)
    (acc : List FileSummary × List Table × List String) :
    us.foldl (processFile re) acc =
      (acc.1 ++ us.filterMap (fileSummaryOf re),
       acc.2.1 ++ us.filterMap (tableOf re),
       acc.2.2 ++ (us.map (noticesOf re)).flatten) := by
  induction us generalizing acc with
  | nil => simp
  | cons u us ih =>
    rw [List.foldl_cons, processFile_eq, ih]
    simp only [List.filterMap_cons, List.map_cons, List.flatten_cons, Prod.mk.injEq]
    refine ⟨?_, ?_, ?_⟩
    · cases fileSummaryOf re u <;> simp
    · cases tableOf re u <;> simp
    · simp [List.append_assoc]

/-- Evaluation of the predict route when the batch passes the guard and
produces at least one table. -/
theorem runPredict_eval (re : String → Except String Table) (uploads : List Upload)
    (st : ProcState) (hg : ¬ (uploads = [] ∨ ∀ u ∈ uploads, u.filename = ""))
    (hne : uploads.filterMap (tableOf re) ≠ []) :
    runPredict re uploads st =
      (PredictResult.ok (mkOutput (uploads.filterMap (fileSummaryOf re))
          (uploads.filterMap (tableOf re))),
       (uploads.map (noticesOf re)).flatten,
       { resultFile := some (mkOutput (uploads.filterMap (fileSummaryOf re))
          (uploads.filterMap (tableOf re))).merged }) := by
  have hf := foldl_processFile re uploads ([], [], [])
  simp only [List.nil_append] at hf
  rw [runPredict, if_neg hg, hf, runMerge, if_neg hne]

/-- A failing predict call leaves the result slot untouched. -/
theorem runPredict_state_of_not_ok (re : String → Except String Table) (b : List Upload)
    (st : ProcState) (h : resultIsOk (runPredict re b st).1 = false) :
    (runPredict re b st).2.2 = st := by
  by_cases hg : b = [] ∨ ∀ u ∈ b, u.filename = ""
  · rw [runPredict, if_pos hg]
  · by_cases hne : (b.foldl (processFile re) ([], [], [])).2.1 = []
    · rw [runPredict, if_neg hg, runMerge, if_pos hne]
    · rw [runPredict, if_neg hg, runMerge, if_neg hne] at h
      simp [resultIsOk] at h

/-- Difference cell equal to zero, characterised. -/
theorem valIsZero_iff (v : Value) : valIsZero v = true ↔ ∃ q, v = Value.num q ∧ q = 0 := by
  cases v <;> simp [valIsZero]

/-- Difference cell strictly negative, characterised. -/
theorem valIsNeg_iff (v : Value) : valIsNeg v = true ↔ ∃ q, v = Value.num q ∧ q < 0 := by
  cases v <;> simp [valIsNeg]

/-- Difference cell strictly positive, characterised. -/
theorem valIsPos_iff (v : Value) : valIsPos v = true ↔ ∃ q, v = Value.num q ∧ 0 < q := by
  cases v <;> simp [valIsPos]

/-- Bucket counting over a difference column of numbers and nulls: the
three buckets never overlap, cover exactly the numeric cells, and cover
everything exactly when there is no null. -/
theorem bucket_counts (ds : List Value)
    (hd : ∀ v ∈ ds, v = Value.null ∨ ∃ q, v = Value.num q) :
    (ds.countP valIsZero + ds.countP valIsNeg + ds.countP valIsPos ≤ ds.length) ∧
    (ds.countP valIsZero + ds.countP valIsNeg + ds.countP valIsPos = ds.length ↔
      ∀ v ∈ ds, v ≠ Value.null) := by
  induction ds with
  | nil => simp
  | cons v ds ih =>
    have hv := hd v (List.mem_cons_self v ds)
    have ihh := ih (fun w hw => hd w (List.mem_cons_of_mem v hw))
    rcases hv with rfl | ⟨q, rfl⟩
    · simp only [List.countP_cons, valIsZero, valIsNeg, valIsPos, List.length_cons,
        if_neg (by simp : ¬ (false = true))]
      constructor
      · have := ihh.1
        omega
      · constructor
        · intro h
          have := ihh.1
          omega
        · intro h
          exact absurd rfl (h Value.null (List.mem_cons_self _ _))
    · have hone : (if valIsZero (Value.num q) = true then 1 else 0)
          + (if valIsNeg (Value.num q) = true then 1 else 0)
          + (if valIsPos (Value.num q) = true then 1 else 0) = 1 := by
        rcases lt_trichotomy q 0 with hq | hq | hq
        · simp [valIsZero, valIsNeg, valIsPos, hq, ne_of_lt hq, asymm hq]
        · simp [valIsZero, valIsNeg, valIsPos, hq]
        · simp [valIsZero, valIsNeg, valIsPos, hq, ne_of_gt hq, asymm hq]
      simp only [List.countP_cons, List.length_cons]
      constructor
      · have := ihh.1
        omega
      · constructor
        · intro h
          have hsum : ds.countP valIsZero + ds.countP valIsNeg + ds.countP valIsPos
              = ds.length := by omega
          intro w hw
          rcases List.mem_cons.mp hw with rfl | hw2
          · simp
          · exact (ihh.2.mp hsum) w hw2
        · intro h
          have hsum := ihh.2.mpr (fun w hw => h w (List.mem_cons_of_mem _ hw))
          omega

/-- The over bucket amount is a sum of flipped negative differences,
hence non-negative. -/
theorem over_amount_nonneg (t : Table) : 0 ≤ (reconcSummary t).over.amount := by
  apply List.sum_nonneg
  intro x hx
  simp only [List.mem_map] at hx
  obtain ⟨p, hp, rfl⟩ := hx
  obtain ⟨q, hq1, hq2⟩ := (valIsNeg_iff p.1).mp (List.mem_filter.mp hp).2
  rw [hq1]
  simp only [valNum]
  linarith

/-- The under bucket amount is a sum of positive differences, hence
non-negative. -/
theorem under_amount_nonneg (t : Table) : 0 ≤ (reconcSummary t).under.amount := by
  apply List.sum_nonneg
  intro x hx
  simp only [List.mem_map] at hx
  obtain ⟨p, hp, rfl⟩ := hx
  obtain ⟨q, hq1, hq2⟩ := (valIsPos_iff p.1).mp (List.mem_filter.mp hp).2
  rw [hq1]
  simp only [valNum]
  linarith

/-- The three summary counts are the bucket counts over the difference
column. -/
theorem reconc_counts (t : Table) :
    (reconcSummary t).correct.count = (getColVals t ("difference")).countP valIsZero ∧
    (reconcSummary t).over.count = (getColVals t ("difference")).countP valIsNeg ∧
    (reconcSummary t).under.count = (getColVals t ("difference")).countP valIsPos := by
  simp only [reconcSummary, getColVals, ← List.countP_eq_length_filter, List.countP_map]
  exact ⟨rfl, rfl, rfl⟩

/-- Every cell of the assigned difference column is a number or null. -/
theorem diff_col_num_or_null {t : Table} (hw : WellFormed t) :
    ∀ v ∈ getColVals (addDifference t) ("difference"),
      v = Value.null ∨ ∃ q, v = Value.num q := by
  rw [getColVals_addDifference hw]
  intro v hv
  obtain ⟨r, _, rfl⟩ := List.mem_map.mp hv
  cases h : rowDiff t.cols r with
  | none => exact Or.inl (by simp [diffValue, h])
  | some q => exact Or.inr ⟨q, by simp [diffValue, h]⟩

/-- Bucket counts of the summary over a rectangular table with an
assigned difference column: bounded by the row count, with equality
exactly when no difference is null. -/
theorem summary_counts {t : Table} (hw : WellFormed t) :
    ((reconcSummary (addDifference t)).correct.count
        + (reconcSummary (addDifference t)).over.count
        + (reconcSummary (addDifference t)).under.count
      ≤ (addDifference t).rows.length) ∧
    ((reconcSummary (addDifference t)).correct.count
        + (reconcSummary (addDifference t)).over.count
        + (reconcSummary (addDifference t)).under.count
      = (addDifference t).rows.length ↔
      ∀ v ∈ getColVals (addDifference t) ("difference"), v ≠ Value.null) := by
  have hb := bucket_counts (getColVals (addDifference t) ("difference"))
    (diff_col_num_or_null hw)
  have hc := reconc_counts (addDifference t)
  have hlen : (getColVals (addDifference t) ("difference")).length
      = (addDifference t).rows.length := by
    simp [getColVals]
  rw [hc.1, hc.2.1, hc.2.2, ← hlen]
  exact hb

/-- Sequencing cell conversions succeeds exactly when every cell
converts. -/
theorem exMapM_isOk_iff {α β : Type} (f : α → Except String β) (l : List α) :
    exIsOk (exMapM f l) = true ↔ ∀ x ∈ l, exIsOk (f x) = true := by
  induction l with
  | nil => simp [exMapM, exIsOk]
  | cons x xs ih =>
    simp only [List.mem_cons, forall_eq_or_imp]
    cases hf : f x with
    | error e => simp [exMapM, hf, exIsOk]
    | ok b =>
      cases hm : exMapM f xs with
      | error e =>
        rw [hm] at ih
        simp only [exMapM, hf, hm, exIsOk]
        simp only [exIsOk] at ih
        simp [← ih]
      | ok bs =>
        rw [hm] at ih
        simp only [exMapM, hf, hm, exIsOk]
        simp only [exIsOk] at ih
        simp [← ih]

/-- Cells of an absent column always convert: they read as null. -/
theorem absent_col_astypeOk {t : Table} {c : String} (hc : c ∉ t.cols) :
    ∀ v ∈ getColVals t c, astypeOk v = true := by
  intro v hv
  simp only [getColVals, List.mem_map] at hv
  obtain ⟨r, _, rfl⟩ := hv
  rw [rowValue_of_not_mem r hc]
  rfl

/-- Conversion of a whole column phrased through the sequenced map. -/
theorem all_astypeOk_iff_exMapM (vs : List Value) :
    (∀ v ∈ vs, astypeOk v = true) ↔ exIsOk (exMapM astypeFloat vs) = true :=
  (exMapM_isOk_iff astypeFloat vs).symm

/-- The quick statistics succeed exactly when every cell of the two
numeric columns converts; a null cell always converts, an unparseable
text cell never does. -/
theorem summarizeFile_isOk_iff (fn : String) (t : Table) :
    exIsOk (summarizeFile fn t) = true ↔
      (∀ v ∈ getColVals t ("total_weight_as_per_x_kg"), astypeOk v = true) ∧
      (∀ v ∈ getColVals t ("charges_billed_by_courier_company_rs"), astypeOk v = true) := by
  by_cases h1 : ("total_weight_as_per_x_kg" : String) ∈ t.cols
  · cases hw : exMapM astypeFloat (getColVals t ("total_weight_as_per_x_kg")) with
    | error e =>
      have hws : ¬ ∀ v ∈ getColVals t ("total_weight_as_per_x_kg"), astypeOk v = true := by
        rw [all_astypeOk_iff_exMapM, hw]
        simp [exIsOk]
      simp [summarizeFile, if_pos h1, hw, exIsOk, hws]
    | ok parsed =>
      have hws : ∀ v ∈ getColVals t ("total_weight_as_per_x_kg"), astypeOk v = true := by
        rw [all_astypeOk_iff_exMapM, hw]
        rfl
      by_cases h2 : ("charges_billed_by_courier_company_rs" : String) ∈ t.cols
      · cases hc : exMapM astypeFloat (getColVals t ("charges_billed_by_courier_company_rs")) with
        | error e =>
          have hcs : ¬ ∀ v ∈ getColVals t ("charges_billed_by_courier_company_rs"),
              astypeOk v = true := by
            rw [all_astypeOk_iff_exMapM, hc]
            simp [exIsOk]
          simp [summarizeFile, if_pos h1, if_pos h2, hw, hc, exIsOk, hws, hcs]
        | ok parsed2 =>
          have hcs : ∀ v ∈ getColVals t ("charges_billed_by_courier_company_rs"),
              astypeOk v = true := by
            rw [all_astypeOk_iff_exMapM, hc]
            rfl
          simp only [summarizeFile, if_pos h1, if_pos h2, hw, hc, exIsOk, true_iff]
          exact ⟨hws, hcs⟩
      · have hcs := absent_col_astypeOk (t := t) h2
        simp only [summarizeFile, if_pos h1, if_neg h2, hw, exIsOk, true_iff]
        exact ⟨hws, hcs⟩
  · have hws := absent_col_astypeOk (t := t) h1
    by_cases h2 : ("charges_billed_by_courier_company_rs" : String) ∈ t.cols
    · cases hc : exMapM astypeFloat (getColVals t ("charges_billed_by_courier_company_rs")) with
      | error e =>
        have hcs : ¬ ∀ v ∈ getColVals t ("charges_billed_by_courier_company_rs"),
            astypeOk v = true := by
          rw [all_astypeOk_iff_exMapM, hc]
          simp [exIsOk]
        simp [summarizeFile, if_neg h1, if_pos h2, hc, exIsOk, hws, hcs]
      | ok parsed2 =>
        have hcs : ∀ v ∈ getColVals t ("charges_billed_by_courier_company_rs"),
            astypeOk v = true := by
          rw [all_astypeOk_iff_exMapM, hc]
          rfl
        simp only [summarizeFile, if_neg h1, if_pos h2, hc, exIsOk, true_iff]
        exact ⟨hws, hcs⟩
    · have hcs := absent_col_astypeOk (t := t) h2
      simp only [summarizeFile, if_neg h1, if_neg h2, exIsOk, true_iff]
      exact ⟨hws, hcs⟩

/-- The computed difference cell for a row with numeric charge cells. -/
theorem diffValue_eq {cols : List String} {r : List Value} {a b : ℚ}
    (ha : rowValue cols r ("expected_charge_as_per_x_rs") = Value.num a)
    (hb : rowValue cols r ("charges_billed_by_courier_company_rs") = Value.num b) :
    diffValue cols r = Value.num (a - b) := by
  simp [diffValue, rowDiff, ha, hb, toNumericVal]

/-- The final merged table carries every required column, reading null
everywhere when the column was absent from every input. -/
theorem merged_required_cols (ts : List Table) (c : String) (hc : c ∈ requiredCols) :
    c ∈ (addDifference (ensureRequired (concatTables ts))).cols ∧
    ((∀ t ∈ ts, c ∉ t.cols) →
      ∀ v ∈ getColVals (addDifference (ensureRequired (concatTables ts))) c,
        v = Value.null) := by
  have hwfc : WellFormed (concatTables ts) := concat_wf ts
  have hcd : c ≠ ("difference") := by
    intro h
    subst h
    revert hc
    decide
  constructor
  · exact addDifference_cols_sub _ (mem_ensureCols requiredCols _ c hc)
  · intro habs v hv
    have habsU : c ∉ (concatTables ts).cols := by
      intro hmem
      obtain ⟨t, ht, hct⟩ := (mem_unionCols ts c).mp hmem
      exact habs t ht hct
    obtain ⟨g, hgrows, hgval⟩ := addDifference_rows_map (ensureRequired (concatTables ts))
    simp only [getColVals, List.mem_map] at hv
    obtain ⟨r2, hr2, rfl⟩ := hv
    rw [hgrows] at hr2
    obtain ⟨r0, hr0, rfl⟩ := List.mem_map.mp hr2
    rw [hgval c hcd r0 (wf_ensureCols requiredCols hwfc r0 hr0)]
    exact ensureCols_absent_null requiredCols hwfc habsU _
      (List.mem_map_of_mem (fun r => rowValue (ensureRequired (concatTables ts)).cols r c) hr0)

/-- C1.  Running the pipeline on one csv upload with header
order_id,expected_charge_as_per_x_rs,charges_billed_by_courier_company_rs
and rows (A1,100,90), (A2,50,50) yields the summary
correct = (1, 50), over = (0, 0), under = (1, 10). -/
theorem claim_C1 :
    okSummary (runPredict readExcelNone [uploadC1] initialState).1 =
      some { correct := { count := 1, amount := 50 },
             over := { count := 0, amount := 0 },
             under := { count := 1, amount := 10 } } := by
  have h : okSummary (runPredict readExcelNone [uploadC1] initialState).1
      = some (reconcSummary (addDifference (ensureRequired (concatTables
        [{ cols := ["order_id", "expected_charge_as_per_x_rs",
                    "charges_billed_by_courier_company_rs"],
           rows := [[Value.str "A1", Value.num 100, Value.num 90],
                    [Value.str "A2", Value.num 50, Value.num 50]] }])))) := rfl
  rw [h]
  have e1 : ensureRequired (concatTables
      [{ cols := ["order_id", "expected_charge_as_per_x_rs",
                  "charges_billed_by_courier_company_rs"],
         rows := [[Value.str "A1", Value.num 100, Value.num 90],
                  [Value.str "A2", Value.num 50, Value.num 50]] }]) =
      { cols := ["order_id", "expected_charge_as_per_x_rs", "charges_billed_by_courier_company_rs",
                 "awb_number", "total_weight_as_per_x_kg", "weight_slab_as_per_x_kg",
                 "total_weight_as_per_courier_company_kg", "weight_slab_charged_by_courier_company_kg",
                 "delivery_zone_as_per_x", "delivery_zone_charged_by_courier_company"],
        rows := [[Value.str "A1", Value.num 100, Value.num 90, Value.null, Value.null,
                  Value.null, Value.null, Value.null, Value.null, Value.null],
                 [Value.str "A2", Value.num 50, Value.num 50, Value.null, Value.null,
                  Value.null, Value.null, Value.null, Value.null, Value.null]] } := by decide
  rw [e1]
  have hd1 : diffValue
      ["order_id", "expected_charge_as_per_x_rs", "charges_billed_by_courier_company_rs",
       "awb_number", "total_weight_as_per_x_kg", "weight_slab_as_per_x_kg",
       "total_weight_as_per_courier_company_kg", "weight_slab_charged_by_courier_company_kg",
       "delivery_zone_as_per_x", "delivery_zone_charged_by_courier_company"]
      [Value.str "A1", Value.num 100, Value.num 90, Value.null, Value.null,
       Value.null, Value.null, Value.null, Value.null, Value.null] = Value.num 10 := by
    rw [diffValue_eq (a := 100) (b := 90) (by decide) (by decide)]
    norm_num
  have hd2 : diffValue
      ["order_id", "expected_charge_as_per_x_rs", "charges_billed_by_courier_company_rs",
       "awb_number", "total_weight_as_per_x_kg", "weight_slab_as_per_x_kg",
       "total_weight_as_per_courier_company_kg", "weight_slab_charged_by_courier_company_kg",
       "delivery_zone_as_per_x", "delivery_zone_charged_by_courier_company"]
      [Value.str "A2", Value.num 50, Value.num 50, Value.null, Value.null,
       Value.null, Value.null, Value.null, Value.null, Value.null] = Value.num 0 := by
    rw [diffValue_eq (a := 50) (b := 50) (by decide) (by decide)]
    norm_num
  have hci : colIdx
      ["order_id", "expected_charge_as_per_x_rs", "charges_billed_by_courier_company_rs",
       "awb_number", "total_weight_as_per_x_kg", "weight_slab_as_per_x_kg",
       "total_weight_as_per_courier_company_kg", "weight_slab_charged_by_courier_company_kg",
       "delivery_zone_as_per_x", "delivery_zone_charged_by_courier_company"]
      ("difference") = none := by decide
  have e2 : addDifference
      { cols := ["order_id", "expected_charge_as_per_x_rs", "charges_billed_by_courier_company_rs",
                 "awb_number", "total_weight_as_per_x_kg", "weight_slab_as_per_x_kg",
                 "total_weight_as_per_courier_company_kg", "weight_slab_charged_by_courier_company_kg",
                 "delivery_zone_as_per_x", "delivery_zone_charged_by_courier_company"],
        rows := [[Value.str "A1", Value.num 100, Value.num 90, Value.null, Value.null,
                  Value.null, Value.null, Value.null, Value.null, Value.null],
                 [Value.str "A2", Value.num 50, Value.num 50, Value.null, Value.null,
                  Value.null, Value.null, Value.null, Value.null, Value.null]] } =
      { cols := ["order_id", "expected_charge_as_per_x_rs", "charges_billed_by_courier_company_rs",
                 "awb_number", "total_weight_as_per_x_kg", "weight_slab_as_per_x_kg",
                 "total_weight_as_per_courier_company_kg", "weight_slab_charged_by_courier_company_kg",
                 "delivery_zone_as_per_x", "delivery_zone_charged_by_courier_company", "difference"],
        rows := [[Value.str "A1", Value.num 100, Value.num 90, Value.null, Value.null,
                  Value.null, Value.null, Value.null, Value.null, Value.null, Value.num 10],
                 [Value.str "A2", Value.num 50, Value.num 50, Value.null, Value.null,
                  Value.null, Value.null, Value.null, Value.null, Value.null, Value.num 0]] } := by
    simp only [addDifference, hci, List.map_cons, List.map_nil, hd1, hd2]
    decide
  rw [e2]
  have hs : reconcSummary
      { cols := ["order_id", "expected_charge_as_per_x_rs", "charges_billed_by_courier_company_rs",
                 "awb_number", "total_weight_as_per_x_kg", "weight_slab_as_per_x_kg",
                 "total_weight_as_per_courier_company_kg", "weight_slab_charged_by_courier_company_kg",
                 "delivery_zone_as_per_x", "delivery_zone_charged_by_courier_company", "difference"],
        rows := [[Value.str "A1", Value.num 100, Value.num 90, Value.null, Value.null,
                  Value.null, Value.null, Value.null, Value.null, Value.null, Value.num 10],
                 [Value.str "A2", Value.num 50, Value.num 50, Value.null, Value.null,
                  Value.null, Value.null, Value.null, Value.null, Value.null, Value.num 0]] } =
      { correct := { count := 1, amount := 50 },
        over := { count := 0, amount := 0 },
        under := { count := 1, amount := 10 } } := by
    show Summary.mk ⟨1, (50:ℚ) + 0⟩ ⟨0, (0:ℚ)⟩ ⟨1, (10:ℚ) + 0⟩ = _
    norm_num
  rw [hs]

/-- C2.  For every merged table the engine produces, the three bucket
counts sum to at most the number of merged rows, with equality exactly
when no row has a null difference; null-difference rows are excluded
from every bucket. -/
theorem claim_C2 (sums : List FileSummary) (dfs : List Table) :
    ((mkOutput sums dfs).summary.correct.count + (mkOutput sums dfs).summary.over.count
        + (mkOutput sums dfs).summary.under.count
      ≤ (mkOutput sums dfs).merged.rows.length) ∧
    ((mkOutput sums dfs).summary.correct.count + (mkOutput sums dfs).summary.over.count
        + (mkOutput sums dfs).summary.under.count
      = (mkOutput sums dfs).merged.rows.length ↔
      ∀ v ∈ getColVals (mkOutput sums dfs).merged ("difference"), v ≠ Value.null) := by
  simp only [mkOutput]
  exact summary_counts (wf_ensureCols requiredCols (concat_wf dfs))

/-- C3 counterexample: the cleaning chain keeps an underscore that the
claimed transformation (remove every character that is not alphanumeric
or whitespace, underscores included) would delete. -/
theorem claim_C3_counterexample :
    normalizeHeader ("a_b") = "a_b" ∧ specNormalizeHeader ("a_b") = "ab" ∧
    normalizeHeader ("a_b") ≠ specNormalizeHeader ("a_b") := by
  refine ⟨by decide, by decide, by decide⟩

/-- C3 as amended: the Column Normalizer applies, in order, strip,
removal of every character that is not alphanumeric, an underscore or
whitespace (underscores are kept), space-to-underscore, lowercase; the
header " Total Weight (kg)! " normalizes to total_weight_kg. -/
theorem claim_C3 :
    (∀ s, normalizeHeader s = specNormalizeHeaderKeepUnderscore s) ∧
    normalizeHeader (" Total Weight (kg)! ") = "total_weight_kg" :=
  ⟨fun _ => rfl, by decide⟩

/-- C4 counterexample: two distinct raw headers normalize to the same
name, and both positions keep it, so the normalized header list is not
duplicate-free. -/
theorem claim_C4_counterexample :
    normalizeColumns ["a b", "a_b"] = ["a_b", "a_b"] ∧
    ¬ (normalizeColumns ["a b", "a_b"]).Nodup := by
  refine ⟨by decide, by decide⟩

/-- C4 as amended: normalization is deterministic and positional — it
keeps the length and order of the header list and rewrites each position
independently — but colliding names are kept at both positions rather
than deduplicated. -/
theorem claim_C4 (hs : List String) (i : Nat) :
    ((normalizeColumns hs).length = hs.length) ∧
    (normalizeColumns hs)[i]? = Option.map normalizeHeader hs[i]? := by
  refine ⟨by simp [normalizeColumns], by simp [normalizeColumns]⟩

/-- C5 counterexample: a batch whose only row has matching negative
expected and billed charges lands in the correct bucket, whose amount is
the billed sum, here negative. -/
theorem claim_C5_counterexample :
    ∃ out, (runPredict readExcelNone [uploadC5] initialState).1 = PredictResult.ok out ∧
      out.summary.correct.amount < 0 := by
  refine ⟨_, rfl, ?_⟩
  show (reconcSummary (addDifference (ensureRequired (concatTables
      [{ cols := ["order_id", "expected_charge_as_per_x_rs",
                  "charges_billed_by_courier_company_rs"],
         rows := [[Value.str "A1", Value.num (-5), Value.num (-5)]] }])))).correct.amount < 0
  have e1 : ensureRequired (concatTables
      [{ cols := ["order_id", "expected_charge_as_per_x_rs",
                  "charges_billed_by_courier_company_rs"],
         rows := [[Value.str "A1", Value.num (-5), Value.num (-5)]] }]) =
      { cols := ["order_id", "expected_charge_as_per_x_rs", "charges_billed_by_courier_company_rs",
                 "awb_number", "total_weight_as_per_x_kg", "weight_slab_as_per_x_kg",
                 "total_weight_as_per_courier_company_kg", "weight_slab_charged_by_courier_company_kg",
                 "delivery_zone_as_per_x", "delivery_zone_charged_by_courier_company"],
        rows := [[Value.str "A1", Value.num (-5), Value.num (-5), Value.null, Value.null,
                  Value.null, Value.null, Value.null, Value.null, Value.null]] } := by decide
  rw [e1]
  have hd : diffValue
      ["order_id", "expected_charge_as_per_x_rs", "charges_billed_by_courier_company_rs",
       "awb_number", "total_weight_as_per_x_kg", "weight_slab_as_per_x_kg",
       "total_weight_as_per_courier_company_kg", "weight_slab_charged_by_courier_company_kg",
       "delivery_zone_as_per_x", "delivery_zone_charged_by_courier_company"]
      [Value.str "A1", Value.num (-5), Value.num (-5), Value.null, Value.null,
       Value.null, Value.null, Value.null, Value.null, Value.null] = Value.num 0 := by
    rw [diffValue_eq (a := -5) (b := -5) (by decide) (by decide)]
    norm_num
  have hci : colIdx
      ["order_id", "expected_charge_as_per_x_rs", "charges_billed_by_courier_company_rs",
       "awb_number", "total_weight_as_per_x_kg", "weight_slab_as_per_x_kg",
       "total_weight_as_per_courier_company_kg", "weight_slab_charged_by_courier_company_kg",
       "delivery_zone_as_per_x", "delivery_zone_charged_by_courier_company"]
      ("difference") = none := by decide
  have e2 : addDifference
      { cols := ["order_id", "expected_charge_as_per_x_rs", "charges_billed_by_courier_company_rs",
                 "awb_number", "total_weight_as_per_x_kg", "weight_slab_as_per_x_kg",
                 "total_weight_as_per_courier_company_kg", "weight_slab_charged_by_courier_company_kg",
                 "delivery_zone_as_per_x", "delivery_zone_charged_by_courier_company"],
        rows := [[Value.str "A1", Value.num (-5), Value.num (-5), Value.null, Value.null,
                  Value.null, Value.null, Value.null, Value.null, Value.null]] } =
      { cols := ["order_id", "expected_charge_as_per_x_rs", "charges_billed_by_courier_company_rs",
                 "awb_number", "total_weight_as_per_x_kg", "weight_slab_as_per_x_kg",
                 "total_weight_as_per_courier_company_kg", "weight_slab_charged_by_courier_company_kg",
                 "delivery_zone_as_per_x", "delivery_zone_charged_by_courier_company", "difference"],
        rows := [[Value.str "A1", Value.num (-5), Value.num (-5), Value.null, Value.null,
                  Value.null, Value.null, Value.null, Value.null, Value.null, Value.num 0]] } := by
    simp only [addDifference, hci, List.map_cons, List.map_nil, hd]
    decide
  rw [e2]
  show (-5 : ℚ) + 0 < 0
  norm_num

/-- C5 as amended: the over and under bucket amounts are non-negative
for every merged table the engine produces; the correct bucket amount is
the raw billed sum over the correct rows, which the counterexample shows
can be negative. -/
theorem claim_C5 (sums : List FileSummary) (dfs : List Table) :
    0 ≤ (mkOutput sums dfs).summary.over.amount ∧
    0 ≤ (mkOutput sums dfs).summary.under.amount := by
  simp only [mkOutput]
  exact ⟨over_amount_nonneg _, under_amount_nonneg _⟩

/-- C6 counterexample: a parsed table whose weight column holds the
unparseable string abc makes the quick statistics raise, and the
pipeline therefore records no per-file summary for the upload even
though its ingestion succeeded. -/
theorem claim_C6_counterexample :
    summarizeFile ("f.csv") tableWeightBad
      = Except.error ("could not convert string to float: abc") ∧
    tableOf readExcelNone uploadW = some
      { cols := ["total_weight_as_per_x_kg"], rows := [[Value.str "abc"]] } ∧
    fileSummaryOf readExcelNone uploadW = none := by
  refine ⟨by decide, by decide, by decide⟩

/-- C6 as amended: the per-file statistics succeed exactly when every
cell of the two numeric columns converts under astype(float); null cells
always convert and are excluded from the mean, as the three-row weight
table with one null shows (mean 2 over the two numeric cells), but an
unparseable text cell makes the summarization of that file raise. -/
theorem claim_C6 :
    (∀ fn t, exIsOk (summarizeFile fn t) = true ↔
       (∀ v ∈ getColVals t ("total_weight_as_per_x_kg"), astypeOk v = true) ∧
       (∀ v ∈ getColVals t ("charges_billed_by_courier_company_rs"), astypeOk v = true)) ∧
    astypeOk Value.null = true ∧
    summarizeFile ("g.csv") tableWeightNull =
      Except.ok { filename := "g.csv",
                  preview := [[Value.num 1], [Value.null], [Value.num 3]],
                  total_orders := 3, avg_weight := Stat.num 2, total_cost := Stat.na,
                  chart_labels := [], chart_data := [] } := by
  refine ⟨summarizeFile_isOk_iff, by decide, ?_⟩
  have hr : pyRound (((1:ℚ) + (3 + 0)) / ((2:ℕ):ℚ)) 3 = 2 := by
    norm_num [pyRound, roundHalfEven]
  rw [← hr]
  rfl

/-- C7.  Every merged table the engine produces contains all ten
required schema columns; a required column absent from every input table
is present and filled entirely with the null sentinel. -/
theorem claim_C7 (sums : List FileSummary) (ts : List Table) (c : String)
    (hc : c ∈ requiredCols) :
    c ∈ (mkOutput sums ts).merged.cols ∧
    ((∀ t ∈ ts, c ∉ t.cols) →
      ∀ v ∈ getColVals (mkOutput sums ts).merged c, v = Value.null) := by
  simp only [mkOutput]
  exact merged_required_cols ts c hc

/-- C7 witness: for the one-column input table the required column
awb_number is present in the merged output and reads null on every
row. -/
theorem claim_C7_witness :
    ("awb_number" : String) ∈ (mkOutput [] [tableX]).merged.cols ∧
    (∀ v ∈ getColVals (mkOutput [] [tableX]).merged ("awb_number"), v = Value.null) := by
  have h := claim_C7 [] [tableX] ("awb_number") (by decide)
  exact ⟨h.1, h.2 (by decide)⟩

/-- C8.  A batch holding an unsupported-extension upload and a
successfully ingested upload flashes a notice naming the unsupported
file and skips it, still succeeds, and keeps every row of the ingested
file in the merged table with its columns read unchanged (the computed
difference column aside). -/
theorem claim_C8 (re : String → Except String Table) (uploads : List Upload) (st : ProcState)
    (u v : Upload) (tv : Table)
    (hu : u ∈ uploads) (hv : v ∈ uploads)
    (huf : u.filename ≠ "") (hua : allowedFile u.filename = false)
    (hvf : v.filename ≠ "") (hva : allowedFile v.filename = true)
    (hvr : readDataframe re v = Except.ok tv) :
    ("Unsupported file type: " ++ u.filename) ∈ (runPredict re uploads st).2.1 ∧
    ∃ out, (runPredict re uploads st).1 = PredictResult.ok out ∧
      ∀ r ∈ (normalizeTable tv).rows, ∃ mr ∈ out.merged.rows,
        ∀ c ∈ (normalizeTable tv).cols, c ≠ ("difference") →
          rowValue out.merged.cols mr c = rowValue (normalizeTable tv).cols r c := by
  have hg : ¬ (uploads = [] ∨ ∀ w ∈ uploads, w.filename = "") := by
    rintro (rfl | hall)
    · exact absurd hv (List.not_mem_nil v)
    · exact hvf (hall v hv)
  have htv : tableOf re v = some (normalizeTable tv) := by
    simp [tableOf, hvf, hva, hvr]
  have hmem : normalizeTable tv ∈ uploads.filterMap (tableOf re) :=
    List.mem_filterMap.mpr ⟨v, hv, htv⟩
  have hne : uploads.filterMap (tableOf re) ≠ [] := by
    intro h0
    rw [h0] at hmem
    exact absurd hmem (List.not_mem_nil _)
  rw [runPredict_eval re uploads st hg hne]
  simp only [mkOutput]
  constructor
  · apply List.mem_flatten.mpr
    refine ⟨noticesOf re u, List.mem_map_of_mem _ hu, ?_⟩
    simp [noticesOf, huf, hua]
  · refine ⟨_, rfl, ?_⟩
    intro r hr
    obtain ⟨mr, hmr, hval⟩ := merged_preserves hmem hr
    exact ⟨mr, hmr, hval⟩

/-- C8 witness: the batch of notes.txt and the two-row csv flashes the
unsupported notice, succeeds, and keeps both csv rows in the merged
table. -/
theorem claim_C8_witness :
    ("Unsupported file type: " ++ uploadBad.filename)
        ∈ (runPredict readExcelNone [uploadBad, uploadC1] initialState).2.1 ∧
    ∃ out, (runPredict readExcelNone [uploadBad, uploadC1] initialState).1
        = PredictResult.ok out ∧
      ∀ r ∈ (normalizeTable
          { cols := ["order_id", "expected_charge_as_per_x_rs",
                     "charges_billed_by_courier_company_rs"],
            rows := [[Value.str "A1", Value.num 100, Value.num 90],
                     [Value.str "A2", Value.num 50, Value.num 50]] }).rows,
        ∃ mr ∈ out.merged.rows,
          ∀ c ∈ (normalizeTable
              { cols := ["order_id", "expected_charge_as_per_x_rs",
                         "charges_billed_by_courier_company_rs"],
                rows := [[Value.str "A1", Value.num 100, Value.num 90],
                         [Value.str "A2", Value.num 50, Value.num 50]] }).cols,
            c ≠ ("difference") →
              rowValue out.merged.cols mr c = rowValue (normalizeTable
                { cols := ["order_id", "expected_charge_as_per_x_rs",
                           "charges_billed_by_courier_company_rs"],
                  rows := [[Value.str "A1", Value.num 100, Value.num 90],
                           [Value.str "A2", Value.num 50, Value.num 50]] }).cols r c :=
  claim_C8 readExcelNone [uploadBad, uploadC1] initialState uploadBad uploadC1
    { cols := ["order_id", "expected_charge_as_per_x_rs",
               "charges_billed_by_courier_company_rs"],
      rows := [[Value.str "A1", Value.num 100, Value.num 90],
               [Value.str "A2", Value.num 50, Value.num 50]] }
    (by decide) (by decide) (by decide) (by decide) (by decide) (by decide) (by decide)

/-- C9.  When no predict call of the process ever reconciles
successfully, the download route reports that no result is available
rather than serving a file. -/
theorem claim_C9 (re : String → Except String Table) (batches : List (List Upload))
    (h : ∀ st : ProcState, ∀ b ∈ batches, resultIsOk (runPredict re b st).1 = false) :
    download (runBatches re batches initialState)
      = DownloadResult.exportUnavailable ("No result file available.") := by
  have key : ∀ (bs : List (List Upload)) (st : ProcState),
      (∀ st2 : ProcState, ∀ b ∈ bs, resultIsOk (runPredict re b st2).1 = false) →
      runBatches re bs st = st := by
    intro bs
    induction bs with
    | nil => intro st _; rfl
    | cons b bs ih =>
      intro st hh
      have h1 : (runPredict re b st).2.2 = st :=
        runPredict_state_of_not_ok re b st (hh st b (List.mem_cons_self _ _))
      calc runBatches re (b :: bs) st = runBatches re bs ((runPredict re b st).2.2) := rfl
        _ = runBatches re bs st := by rw [h1]
        _ = st := ih st (fun st2 b2 hb2 => hh st2 b2 (List.mem_cons_of_mem _ hb2))
  rw [key batches initialState h]
  rfl

/-- C9 witness: after one batch whose single upload has an unsupported
extension, download still reports that no result is available. -/
theorem claim_C9_witness :
    download (runBatches readExcelNone [[uploadBad]] initialState)
      = DownloadResult.exportUnavailable ("No result file available.") := by
  apply claim_C9
  intro st b hb
  simp only [List.mem_singleton] at hb
  subst hb
  rfl

/-- C10.  An upload that parses but whose quick statistics raise is
flashed with a file-scoped error and yields no per-file summary entry,
yet its table was already added to the merge set, so its rows still
appear in the merged table and count toward reconciliation. -/
theorem claim_C10 (re : String → Except String Table) (uploads : List Upload) (st : ProcState)
    (v : Upload) (tv : Table) (e : String)
    (hv : v ∈ uploads) (hvf : v.filename ≠ "") (hva : allowedFile v.filename = true)
    (hvr : readDataframe re v = Except.ok tv)
    (hse : summarizeFile v.filename (normalizeTable tv) = Except.error e) :
    ("Error in " ++ v.filename ++ ": " ++ e) ∈ (runPredict re uploads st).2.1 ∧
    fileSummaryOf re v = none ∧
    ∃ out, (runPredict re uploads st).1 = PredictResult.ok out ∧
      out.file_summaries = uploads.filterMap (fileSummaryOf re) ∧
      ∀ r ∈ (normalizeTable tv).rows, ∃ mr ∈ out.merged.rows,
        ∀ c ∈ (normalizeTable tv).cols, c ≠ ("difference") →
          rowValue out.merged.cols mr c = rowValue (normalizeTable tv).cols r c := by
  have hg : ¬ (uploads = [] ∨ ∀ w ∈ uploads, w.filename = "") := by
    rintro (rfl | hall)
    · exact absurd hv (List.not_mem_nil v)
    · exact hvf (hall v hv)
  have htv : tableOf re v = some (normalizeTable tv) := by
    simp [tableOf, hvf, hva, hvr]
  have hmem : normalizeTable tv ∈ uploads.filterMap (tableOf re) :=
    List.mem_filterMap.mpr ⟨v, hv, htv⟩
  have hne : uploads.filterMap (tableOf re) ≠ [] := by
    intro h0
    rw [h0] at hmem
    exact absurd hmem (List.not_mem_nil _)
  rw [runPredict_eval re uploads st hg hne]
  simp only [mkOutput]
  refine ⟨?_, ?_, ?_⟩
  · apply List.mem_flatten.mpr
    refine ⟨noticesOf re v, List.mem_map_of_mem _ hv, ?_⟩
    simp [noticesOf, hvf, hva, hvr, hse]
  · simp [fileSummaryOf, hvf, hva, hvr, hse]
  · refine ⟨_, rfl, rfl, ?_⟩
    intro r hr
    obtain ⟨mr, hmr, hval⟩ := merged_preserves hmem hr
    exact ⟨mr, hmr, hval⟩

/-- C10 witness: the csv whose only weight cell is abc parses, fails its
quick statistics, is flashed, yields no summary entry, and its row still
appears in the merged table. -/
theorem claim_C10_witness :
    ("Error in " ++ uploadW.filename ++ ": could not convert string to float: abc")
        ∈ (runPredict readExcelNone [uploadW] initialState).2.1 ∧
    fileSummaryOf readExcelNone uploadW = none ∧
    ∃ out, (runPredict readExcelNone [uploadW] initialState).1 = PredictResult.ok out ∧
      out.file_summaries = [uploadW].filterMap (fileSummaryOf readExcelNone) ∧
      ∀ r ∈ (normalizeTable
          { cols := ["total_weight_as_per_x_kg"], rows := [[Value.str "abc"]] }).rows,
        ∃ mr ∈ out.merged.rows,
          ∀ c ∈ (normalizeTable
              { cols := ["total_weight_as_per_x_kg"], rows := [[Value.str "abc"]] }).cols,
            c ≠ ("difference") →
              rowValue out.merged.cols mr c = rowValue (normalizeTable
                { cols := ["total_weight_as_per_x_kg"], rows := [[Value.str "abc"]] }).cols r c :=
  claim_C10 readExcelNone [uploadW] initialState uploadW
    { cols := ["total_weight_as_per_x_kg"], rows := [[Value.str "abc"]] }
    ("could not convert string to float: abc")
    (by decide) (by decide) (by decide) (by decide) (by decide)
